import Mathlib

/-!
Shallow embedding of the scheduling, conflict-detection and playback core of
the moerduo repository (src/src-tauri/src: scheduler.rs, task.rs, player.rs),
together with theorems settling the specification's claims against it.

Machine integers (Rust i64/i32) are modelled as Int; Rust truncating division
`/` is `Int.tdiv` (on the nonnegative operands arising here it agrees with
Euclidean division).  SQL queries are modelled as pure functions over lists of
row records.  A Rust `Option<String>` day-set consumed through
`serde_json::from_str::<Vec<_>>` is modelled by its parse result, see
`CustomDays`.
-/

/-- Model of an `Option<String>` JSON day-set field as seen through
`serde_json::from_str::<Vec<i64>>` / `Vec<i32>`: `none` is an absent string
(SQL NULL), `some none` a present string that fails to parse, and
`some (some l)` a present string that parses to the integer list `l`. -/
abbrev CustomDays := Option (Option (List Int))

/-- task.rs lines 194-203 / 238-243: a custom day set, once parsed, contains
some working day (1..=5); an absent or unparseable set yields false. -/
def anyWeekdayDays (d : CustomDays) : Bool :=
  match d with
  | some (some ds) => ds.any (fun x => decide (1 ≤ x ∧ x ≤ 5))
  | _ => false

/-- task.rs lines 212-221 / 244-246: a custom day set, once parsed, contains
Sunday (0) or Saturday (6); an absent or unparseable set yields false. -/
def anyWeekendDays (d : CustomDays) : Bool :=
  match d with
  | some (some ds) => ds.any (fun x => decide (x = 0 ∨ x = 6))
  | _ => false

/-- task.rs lines 226-236: two parsed custom day sets intersect; if either is
absent or unparseable the Rust code falls through and ends up returning
false, which this function returns directly. -/
def daysIntersect (d1 d2 : CustomDays) : Bool :=
  match d1, d2 with
  | some (some l1), some (some l2) => l1.any (fun x => l2.contains x)
  | _, _ => false

/-- task.rs lines 178-252, `check_repeat_conflict`: can the two repeat
cadences ever pick the same calendar day?  Direct translation of the Rust
if/return chain, including the fall-through when a custom day set is absent
or unparseable. -/
def check_repeat_conflict (mode1 : String) (days1 : CustomDays)
    (mode2 : String) (days2 : CustomDays) : Bool :=
  if mode1 = "once" ∨ mode2 = "once" then true
  else if mode1 = "daily" ∨ mode2 = "daily" then true
  else if mode1 = "weekday" then
    if mode2 = "weekday" then true
    else if mode2 = "custom" then anyWeekdayDays days2
    else false
  else if mode1 = "weekend" then
    if mode2 = "weekend" then true
    else if mode2 = "custom" then anyWeekendDays days2
    else false
  else if mode1 = "custom" ∧ mode2 = "custom" then daysIntersect days1 days2
  else if mode1 = "custom" then
    if mode2 = "weekday" then anyWeekdayDays days1
    else if mode2 = "weekend" then anyWeekendDays days1
    else false
  else false

/-- A `contains` test is a membership test (Int lists). -/
theorem contains_true_iff_mem (l : List Int) (a : Int) :
    l.contains a = true ↔ a ∈ l := by
  simp [List.contains_iff_exists_mem_beq, beq_iff_eq]

/-- Intersection emptiness is symmetric for the `any`/`contains` encoding. -/
theorem any_contains_comm (l1 l2 : List Int) :
    l1.any (fun d => l2.contains d) = l2.any (fun d => l1.contains d) := by
  rw [Bool.eq_iff_iff]
  simp only [List.any_eq_true, contains_true_iff_mem]
  exact ⟨fun ⟨x, h1, h2⟩ => ⟨x, h2, h1⟩, fun ⟨x, h1, h2⟩ => ⟨x, h2, h1⟩⟩

/-- The intersection test on custom day sets is symmetric. -/
theorem daysIntersect_comm (d1 d2 : CustomDays) :
    daysIntersect d1 d2 = daysIntersect d2 d1 := by
  rcases d1 with _ | _ | l1 <;> rcases d2 with _ | _ | l2 <;>
    first
      | rfl
      | exact any_contains_comm l1 l2

/-- C7: the cadence-collision relation is symmetric: for all repeat-mode /
day-set pairs, including malformed or absent custom day sets,
`check_repeat_conflict m1 d1 m2 d2 = check_repeat_conflict m2 d2 m1 d1`. -/
theorem check_repeat_conflict_symm (m1 m2 : String) (d1 d2 : CustomDays) :
    check_repeat_conflict m1 d1 m2 d2 = check_repeat_conflict m2 d2 m1 d1 := by
  by_cases h1 : m1 = "once"
  · simp [check_repeat_conflict, h1]
  by_cases h2 : m2 = "once"
  · simp [check_repeat_conflict, h1, h2]
  by_cases h3 : m1 = "daily"
  · simp [check_repeat_conflict, h1, h2, h3]
  by_cases h4 : m2 = "daily"
  · simp [check_repeat_conflict, h1, h2, h3, h4]
  by_cases h5 : m1 = "weekday" <;> by_cases h6 : m2 = "weekday" <;>
    by_cases h7 : m1 = "weekend" <;> by_cases h8 : m2 = "weekend" <;>
    by_cases h9 : m1 = "custom" <;> by_cases h10 : m2 = "custom" <;>
    simp_all [check_repeat_conflict, daysIntersect_comm]

/-- task.rs lines 169-175: the record pushed for each conflicting task. -/
structure TaskConflict where
  task_id : Int
  task_name : String
  hour : Int
  minute : Int
deriving DecidableEq

/-- One row of the enabled-task query in task.rs lines 291-315, plus the
`is_enabled` flag the SQL WHERE clause filters on. -/
structure StoredTask where
  id : Int
  name : String
  hour : Int
  minute : Int
  repeatMode : String
  customDays : CustomDays
  durationMinutes : Option Int
  playlistId : Int
  isEnabled : Bool
deriving DecidableEq

/-- task.rs lines 269-284 and 333-346: a task's effective duration in minutes,
the explicit `duration_minutes` when present, otherwise the playlist's summed
audio seconds (the `totalSeconds` function stands for the SQL SUM query, with
`COALESCE`/`unwrap_or` folded in) rounded up via `(total_seconds + 59) / 60`
in Rust's truncating i64 division. -/
def effectiveDuration (durationMinutes : Option Int) (playlistId : Int)
    (totalSeconds : Int → Int) : Int :=
  match durationMinutes with
  | some d => d
  | none => (totalSeconds playlistId + 59).tdiv 60

/-- The body of the per-task loop of task.rs lines 319-361: skip the edited
task itself, skip cadences that cannot collide, otherwise test half-open
interval overlap of minutes-since-midnight windows. -/
def conflictEntry (taskId : Option Int) (startTime endTime : Int)
    (repeatMode : String) (customDays : CustomDays) (totalSeconds : Int → Int)
    (t : StoredTask) : Option TaskConflict :=
  if taskId = some t.id then none
  else if check_repeat_conflict repeatMode customDays t.repeatMode t.customDays = true then
    let existingDuration := effectiveDuration t.durationMinutes t.playlistId totalSeconds
    let existingStart := t.hour * 60 + t.minute
    let existingEnd := existingStart + existingDuration
    if startTime < existingEnd ∧ existingStart < endTime then
      some { task_id := t.id, task_name := t.name, hour := t.hour, minute := t.minute }
    else none
  else none

/-- task.rs lines 256-364, `check_task_conflicts`: the candidate's window is
`[hour*60+minute, hour*60+minute+duration)` (not wrapped at 1440), and every
enabled stored task is run through `conflictEntry`. -/
def check_task_conflicts (taskId : Option Int) (hour minute : Int)
    (repeatMode : String) (customDays : CustomDays) (durationMinutes : Option Int)
    (playlistId : Int) (tasks : List StoredTask) (totalSeconds : Int → Int) :
    List TaskConflict :=
  let estimatedDuration := effectiveDuration durationMinutes playlistId totalSeconds
  let startTime := hour * 60 + minute
  let endTime := startTime + estimatedDuration
  (tasks.filter (fun t => t.isEnabled)).filterMap
    (conflictEntry taskId startTime endTime repeatMode customDays totalSeconds)

/-- Characterisation of one loop iteration. -/
theorem conflictEntry_eq_some (taskId : Option Int) (startTime endTime : Int)
    (repeatMode : String) (customDays : CustomDays) (totalSeconds : Int → Int)
    (t : StoredTask) (c : TaskConflict) :
    conflictEntry taskId startTime endTime repeatMode customDays totalSeconds t = some c ↔
      taskId ≠ some t.id ∧
      check_repeat_conflict repeatMode customDays t.repeatMode t.customDays = true ∧
      (startTime < t.hour * 60 + t.minute + effectiveDuration t.durationMinutes t.playlistId totalSeconds ∧
        t.hour * 60 + t.minute < endTime) ∧
      c = { task_id := t.id, task_name := t.name, hour := t.hour, minute := t.minute } := by
  unfold conflictEntry
  dsimp only
  split_ifs with ha hb hc
  · simp [ha]
  · constructor
    · intro h
      injection h with h
      exact ⟨ha, hb, hc, h.symm⟩
    · rintro ⟨-, -, -, rfl⟩
      rfl
  · simp [hc]
  · simp [hb]

/-- C6: `check_task_conflicts` returns exactly those enabled tasks, other than
the optionally excluded task id, whose cadence may collide with the
candidate's and whose `[start, start+duration)` interval (minutes since
midnight, not wrapped at 1440) overlaps the candidate's under the half-open
test `start1 < end2 && start2 < end1`, with each duration being the explicit
`duration_minutes` if present and otherwise `(total_seconds + 59) / 60` of
the task's playlist. -/
theorem check_task_conflicts_mem (taskId : Option Int) (hour minute : Int)
    (repeatMode : String) (customDays : CustomDays) (durationMinutes : Option Int)
    (playlistId : Int) (tasks : List StoredTask) (totalSeconds : Int → Int)
    (c : TaskConflict) :
    c ∈ check_task_conflicts taskId hour minute repeatMode customDays
        durationMinutes playlistId tasks totalSeconds ↔
      ∃ t ∈ tasks, t.isEnabled = true ∧ taskId ≠ some t.id ∧
        check_repeat_conflict repeatMode customDays t.repeatMode t.customDays = true ∧
        (hour * 60 + minute <
            t.hour * 60 + t.minute +
              effectiveDuration t.durationMinutes t.playlistId totalSeconds ∧
          t.hour * 60 + t.minute <
            hour * 60 + minute +
              effectiveDuration durationMinutes playlistId totalSeconds) ∧
        c = { task_id := t.id, task_name := t.name, hour := t.hour, minute := t.minute } := by
  unfold check_task_conflicts
  simp only [List.mem_filterMap, List.mem_filter, conflictEntry_eq_some]
  constructor
  · rintro ⟨t, ⟨ht, hen⟩, hne, hcol, hov, hc⟩
    exact ⟨t, ht, by simpa using hen, hne, hcol, hov, hc⟩
  · rintro ⟨t, ht, hen, hne, hcol, hov, hc⟩
    exact ⟨t, ⟨ht, by simpa using hen⟩, hne, hcol, hov, hc⟩

/-- Day of week, as produced by chrono from the local clock. -/
inductive Weekday
  | sun
  | mon
  | tue
  | wed
  | thu
  | fri
  | sat
deriving DecidableEq

/-- chrono's `Weekday::number_from_sunday`, as called in scheduler.rs line 42:
the day-of-week number starting from Sunday = 1, i.e. Sunday = 1, Monday = 2,
..., Saturday = 7. -/
def numberFromSunday : Weekday → Int
  | .sun => 1
  | .mon => 2
  | .tue => 3
  | .wed => 4
  | .thu => 5
  | .fri => 6
  | .sat => 7

/-- Hour component of a local timestamp in seconds (chrono `now.hour()`). -/
def hourOf (t : Int) : Int := t % 86400 / 3600

/-- Minute component of a local timestamp in seconds (chrono `now.minute()`). -/
def minuteOf (t : Int) : Int := t % 3600 / 60

/-- Calendar-day index of a local timestamp in seconds. -/
def dayIndexOf (t : Int) : Int := t / 86400

/-- Local midnight of the day containing the given local timestamp; this is
the `"{Y-m-d} 00:00:00"` threshold string of scheduler.rs line 137 read as a
point in time. -/
def dayStartOf (t : Int) : Int := t / 86400 * 86400

/-- Day of week for a day index, anchored at day 0 = 1970-01-01 = Thursday. -/
def weekdayOfDay (d : Int) : Weekday :=
  match (d % 7).toNat with
  | 0 => .thu
  | 1 => .fri
  | 2 => .sat
  | 3 => .sun
  | 4 => .mon
  | 5 => .tue
  | _ => .wed

/-- One row of the `execution_history` table (scheduler.rs writes task_id,
status and execution_time).  `time` is the timestamp the row's
`execution_time` string denotes; the SQL string comparisons on DATETIME
text are exactly the numeric comparisons on these values. -/
structure HRow where
  taskId : Int
  time : Int
  status : String
deriving DecidableEq

/-- One row of the enabled-task query of scheduler.rs lines 51-76. -/
structure STask where
  id : Int
  hour : Int
  minute : Int
  repeatMode : String
  customDays : CustomDays
  playlistId : Int
  volume : Int
  fadeInDuration : Int
  priority : Int
  isEnabled : Bool
deriving DecidableEq

/-- scheduler.rs lines 117-123: `SELECT COUNT(*) FROM execution_history WHERE
task_id = ?1` (the query is modelled as always succeeding; `unwrap_or(0)`
only matters on a store error). -/
def countRows (id : Int) (h : List HRow) : Nat :=
  (h.filter (fun r => decide (r.taskId = id))).length

/-- scheduler.rs lines 138-146: number of history rows of the task whose
execution_time is at or after the given threshold. -/
def countRowsSince (id : Int) (since : Int) (h : List HRow) : Nat :=
  (h.filter (fun r => decide (r.taskId = id ∧ since ≤ r.time))).length

/-- scheduler.rs lines 83-90: the firing-window test of one poll tick, with
the captured current hour and minute. -/
def timeMatches (hour minute currentHour currentMinute : Int) : Bool :=
  if currentMinute = 0 then
    decide ((hour = currentHour ∧ minute = 0) ∨
      (hour = (if currentHour = 0 then 23 else currentHour - 1) ∧ minute = 59))
  else
    decide ((hour = currentHour ∧ minute = currentMinute) ∨
      (hour = currentHour ∧ minute = currentMinute - 1))

/-- scheduler.rs lines 99-127: should the task run today?  `currentWeekday`
is the captured `number_from_sunday` value; the `once` arm asks the history
for any row of the task. -/
def shouldExecute (t : STask) (currentWeekday : Int) (hist : List HRow) : Bool :=
  if t.repeatMode = "daily" then true
  else if t.repeatMode = "weekday" then decide (1 ≤ currentWeekday ∧ currentWeekday ≤ 5)
  else if t.repeatMode = "weekend" then decide (currentWeekday = 0 ∨ currentWeekday = 6)
  else if t.repeatMode = "custom" then
    match t.customDays with
    | some (some days) => days.contains currentWeekday
    | _ => false
  else if t.repeatMode = "once" then decide (countRows t.id hist = 0)
  else false

/-- `SELECT MAX(execution_time) FROM execution_history` over a row list;
none models SQL NULL on an empty table. -/
def maxTimeAll : List HRow → Option Int
  | [] => none
  | r :: rs => some (rs.foldl (fun m x => max m x.time) r.time)

/-- `SELECT MAX(execution_time) FROM execution_history WHERE task_id = ?1`. -/
def maxTimeFor (id : Int) (h : List HRow) : Option Int :=
  maxTimeAll (h.filter (fun r => decide (r.taskId = id)))

/-- scheduler.rs lines 281-287 (inside play_playlist, on success):
`UPDATE execution_history SET status = 'completed' WHERE execution_time =
(SELECT MAX(execution_time) FROM execution_history)` — note the missing
task_id filter: every row holding the global maximum is updated. -/
def markCompleted (h : List HRow) : List HRow :=
  h.map (fun r =>
    if maxTimeAll h = some r.time then { r with status := "completed" } else r)

/-- scheduler.rs lines 181-187 (on play_playlist failure):
`UPDATE execution_history SET status = 'failed' WHERE task_id = ?1 AND
execution_time = (SELECT MAX(execution_time) ... WHERE task_id = ?1)`. -/
def markFailed (id : Int) (h : List HRow) : List HRow :=
  h.map (fun r =>
    if r.taskId = id ∧ maxTimeFor id h = some r.time then { r with status := "failed" }
    else r)

/-- scheduler.rs lines 157-188 with 279-287: the firing path for one due
task.  A row (task_id, `datetime('now')` = `tIns`, 'started') is inserted;
then, depending on the orchestration `outcome`, the 'completed' update
(global MAX, no task filter) or the 'failed' update (per-task MAX) runs. -/
def fireTask (id : Int) (tIns : Int) (outcome : Bool) (h : List HRow) : List HRow :=
  let h1 : List HRow := { taskId := id, time := tIns, status := "started" } :: h
  if outcome then markCompleted h1 else markFailed id h1

/-- One iteration of the task loop of scheduler.rs lines 81-189.  `cH`, `cM`,
`cW` and `todayStart` are the hour, minute, weekday number and local midnight
captured once at tick start.  The state is (history, current local time);
`offset` is local-time minus UTC in seconds, so the row inserted through
SQLite's `datetime('now')` (UTC) carries timestamp `now - offset` while the
suppression threshold `todayStart` is local midnight.  `outcome` and
`elapsed` are oracles for play_playlist's success and wall-clock duration. -/
def processTask (offset : Int) (outcome : Int → Bool) (elapsed : Int → Int)
    (cH cM cW todayStart : Int) (st : List HRow × Int) (t : STask) :
    List HRow × Int :=
  if timeMatches t.hour t.minute cH cM = true ∧
      shouldExecute t cW st.1 = true ∧
      countRowsSince t.id todayStart st.1 = 0 then
    (fireTask t.id (st.2 - offset) (outcome t.id) st.1, st.2 + elapsed t.id)
  else st

/-- One poll tick, scheduler.rs `check_and_execute_tasks` (lines 35-192):
capture hour/minute/weekday/midnight from the current local time, then run
every enabled task through `processTask` in list order (the list stands for
the query result in its ORDER BY order). -/
def runTick (db : List STask) (offset : Int) (outcome : Int → Bool)
    (elapsed : Int → Int) (st : List HRow × Int) : List HRow × Int :=
  let cH := hourOf st.2
  let cM := minuteOf st.2
  let cW := numberFromSunday (weekdayOfDay (dayIndexOf st.2))
  let todayStart := dayStartOf st.2
  (db.filter (fun t => t.isEnabled)).foldl
    (processTask offset outcome elapsed cH cM cW todayStart) st

/-- A run of the poll loop: each element of `ticks` is the local time at
which one `check_and_execute_tasks` call starts. -/
def runTicks (db : List STask) (offset : Int) (outcome : Int → Bool)
    (elapsed : Int → Int) : List HRow → List Int → List HRow
  | hist, [] => hist
  | hist, t :: ts =>
      runTicks db offset outcome elapsed
        (runTick db offset outcome elapsed (hist, t)).1 ts

/-- A "weekday"-mode task used to evaluate the day-of-week eligibility. -/
def wkdayTask : STask :=
  { id := 1, hour := 7, minute := 0, repeatMode := "weekday", customDays := none,
    playlistId := 1, volume := 80, fadeInDuration := 0, priority := 0, isEnabled := true }

/-- A "weekend"-mode task used to evaluate the day-of-week eligibility. -/
def wkendTask : STask :=
  { id := 2, hour := 7, minute := 0, repeatMode := "weekend", customDays := none,
    playlistId := 1, volume := 80, fadeInDuration := 0, priority := 0, isEnabled := true }

/-- C1: the code feeds chrono's `number_from_sunday` (Sunday = 1 ... Saturday
= 7) into tests written for the 0 = Sunday ... 6 = Saturday numbering (the
code's own comment on scheduler.rs line 42 and the spec both state the
latter).  Evaluating the eligibility test on actual days: a "weekday" task
is rejected on Friday and accepted on Sunday, and a "weekend" task is
accepted on Friday but rejected on both Saturday and Sunday — so "weekday"
does not fire exactly Monday-Friday and "weekend" does not fire exactly
Saturday-Sunday as claimed. -/
theorem weekday_weekend_eligibility_misnumbered :
    shouldExecute wkdayTask (numberFromSunday .fri) [] = false ∧
    shouldExecute wkdayTask (numberFromSunday .sun) [] = true ∧
    shouldExecute wkdayTask (numberFromSunday .mon) [] = true ∧
    shouldExecute wkendTask (numberFromSunday .fri) [] = true ∧
    shouldExecute wkendTask (numberFromSunday .sat) [] = false ∧
    shouldExecute wkendTask (numberFromSunday .sun) [] = false := by
  decide

/-- C5: the firing window of a poll tick with captured current time
`(cH, cM)` accepts a task at `(hour, minute)` exactly when the task time is
the current minute or the immediately preceding one, with the claimed
rollovers at minute 0 and hour 0. -/
theorem timeMatches_iff (hour minute cH cM : Int) (hH : 0 ≤ cH) (hM : 0 ≤ cM) :
    timeMatches hour minute cH cM = true ↔
      ((hour = cH ∧ minute = cM) ∨
        (0 < cM ∧ hour = cH ∧ minute = cM - 1) ∨
        (cM = 0 ∧ 0 < cH ∧ hour = cH - 1 ∧ minute = 59) ∨
        (cM = 0 ∧ cH = 0 ∧ hour = 23 ∧ minute = 59)) := by
  unfold timeMatches
  by_cases h0 : cM = 0
  · rw [if_pos h0]
    by_cases hH0 : cH = 0
    · rw [if_pos hH0]
      simp only [decide_eq_true_eq]
      omega
    · rw [if_neg hH0]
      simp only [decide_eq_true_eq]
      omega
  · rw [if_neg h0]
    simp only [decide_eq_true_eq]
    omega

/-- Witness for C5 at current time 10:00: a task scheduled at 09:59 matches
(the rollover half of the window). -/
theorem timeMatches_iff_witness :
    (0 ≤ (10 : Int)) ∧ (0 ≤ (0 : Int)) ∧
      (timeMatches 9 59 10 0 = true ↔
        (((9 : Int) = 10 ∧ (59 : Int) = 0) ∨
          ((0 : Int) < 0 ∧ (9 : Int) = 10 ∧ (59 : Int) = 0 - 1) ∨
          ((0 : Int) = 0 ∧ (0 : Int) < 10 ∧ (9 : Int) = 10 - 1 ∧ (59 : Int) = 59) ∨
          ((0 : Int) = 0 ∧ (10 : Int) = 0 ∧ (9 : Int) = 23 ∧ (59 : Int) = 59))) :=
  ⟨by decide, by decide, timeMatches_iff 9 59 10 0 (by decide) (by decide)⟩

/-- A daily task scheduled at local 00:30, used for the suppression check. -/
def dailyTask0030 : STask :=
  { id := 1, hour := 0, minute := 30, repeatMode := "daily", customDays := none,
    playlistId := 1, volume := 80, fadeInDuration := 0, priority := 0, isEnabled := true }

/-- C2: two poll ticks of the same calendar day insert two history rows for
one enabled daily task.  In a UTC+8 local timezone (offset 28800 s) with the
task scheduled at 00:30, ticks at local 00:30:00 and 00:30:10 (timestamps
88200 and 88210, day 1) both fire: the row inserted by the first tick
carries SQLite's `datetime('now')`, the UTC reading 59400 (16:30 of the
previous day), which fails the `execution_time >= local midnight (86400)`
suppression test of the second tick. -/
theorem daily_task_fires_twice_same_day_utc8 :
    countRows 1
        (runTicks [dailyTask0030] 28800 (fun _ => true) (fun _ => 0)
          [] [88200, 88210]) = 2 := by
  decide

/-- Mapping a row function that preserves task ids does not change a task's
row count. -/
theorem countRows_map_preserve (id : Int) (g : HRow → HRow)
    (hg : ∀ r, (g r).taskId = r.taskId) (h : List HRow) :
    countRows id (h.map g) = countRows id h := by
  unfold countRows
  induction h with
  | nil => rfl
  | cons r rs ih =>
      simp only [List.map_cons, List.filter_cons, hg r]
      by_cases hr : r.taskId = id
      · simp [hr, ih]
      · simp [hr, ih]

/-- The 'completed' update only changes statuses, never row counts. -/
theorem countRows_markCompleted (id : Int) (h : List HRow) :
    countRows id (markCompleted h) = countRows id h := by
  unfold markCompleted
  refine countRows_map_preserve id _ (fun r => ?_) h
  by_cases hc : maxTimeAll h = some r.time
  · simp [hc]
  · simp [hc]

/-- The 'failed' update only changes statuses, never row counts. -/
theorem countRows_markFailed (id tid : Int) (h : List HRow) :
    countRows tid (markFailed id h) = countRows tid h := by
  unfold markFailed
  refine countRows_map_preserve tid _ (fun r => ?_) h
  by_cases hc : r.taskId = id ∧ maxTimeFor id h = some r.time
  · simp [hc]
  · simp [hc]

/-- Inserting one row for a task raises its count by one when the ids agree
and leaves it unchanged otherwise. -/
theorem countRows_cons (tid : Int) (row : HRow) (h : List HRow) :
    countRows tid (row :: h) =
      (if row.taskId = tid then 1 else 0) + countRows tid h := by
  unfold countRows
  by_cases hr : row.taskId = tid <;>
    simp [List.filter_cons, hr, Nat.add_comm]

/-- A firing inserts exactly one row, for the fired task. -/
theorem countRows_fireTask (id tid tIns : Int) (outcome : Bool) (h : List HRow) :
    countRows tid (fireTask id tIns outcome h) =
      (if id = tid then 1 else 0) + countRows tid h := by
  unfold fireTask
  cases outcome
  · rw [if_neg (by simp), countRows_markFailed, countRows_cons]
  · rw [if_pos rfl, countRows_markCompleted, countRows_cons]

/-- One task-loop iteration keeps a `once` task's row count at most one. -/
theorem countRows_processTask_le (offset : Int) (outcome : Int → Bool)
    (elapsed : Int → Int) (cH cM cW todayStart : Int) (st : List HRow × Int)
    (t : STask) (tid : Int) (honce : t.id = tid → t.repeatMode = "once")
    (hinv : countRows tid st.1 ≤ 1) :
    countRows tid (processTask offset outcome elapsed cH cM cW todayStart st t).1 ≤ 1 := by
  unfold processTask
  split
  · next hguard =>
      obtain ⟨-, hexec, -⟩ := hguard
      simp only [countRows_fireTask]
      by_cases hid : t.id = tid
      · have hmode := honce hid
        unfold shouldExecute at hexec
        rw [hmode] at hexec
        simp only [String.reduceEq, if_neg, if_pos, ite_false, ite_true,
          reduceIte, decide_eq_true_eq] at hexec
        rw [hid] at hexec
        simp [hid, hexec]
      · simpa [hid] using hinv
  · exact hinv

/-- The whole task loop of one tick keeps a `once` task's row count at most
one. -/
theorem countRows_foldl_le (offset : Int) (outcome : Int → Bool)
    (elapsed : Int → Int) (cH cM cW todayStart : Int) (l : List STask) (tid : Int)
    (honce : ∀ t ∈ l, t.id = tid → t.repeatMode = "once") :
    ∀ st : List HRow × Int, countRows tid st.1 ≤ 1 →
      countRows tid
          (l.foldl (processTask offset outcome elapsed cH cM cW todayStart) st).1 ≤ 1 := by
  induction l with
  | nil => exact fun st h => h
  | cons t ts ih =>
      intro st h
      exact ih (fun u hu => honce u (List.mem_cons_of_mem _ hu)) _
        (countRows_processTask_le offset outcome elapsed cH cM cW todayStart st t tid
          (honce t (List.mem_cons_self _ _)) h)

/-- One poll tick keeps a `once` task's row count at most one. -/
theorem countRows_runTick_le (db : List STask) (offset : Int)
    (outcome : Int → Bool) (elapsed : Int → Int) (st : List HRow × Int) (tid : Int)
    (honce : ∀ t ∈ db, t.id = tid → t.repeatMode = "once")
    (hinv : countRows tid st.1 ≤ 1) :
    countRows tid (runTick db offset outcome elapsed st).1 ≤ 1 := by
  unfold runTick
  exact countRows_foldl_le _ _ _ _ _ _ _ _ tid
    (fun t ht => honce t (List.mem_of_mem_filter ht)) st hinv

/-- Any run of the poll loop keeps a `once` task's row count at most one. -/
theorem countRows_runTicks_le (db : List STask) (offset : Int)
    (outcome : Int → Bool) (elapsed : Int → Int) (ticks : List Int)
    (hist : List HRow) (tid : Int)
    (honce : ∀ t ∈ db, t.id = tid → t.repeatMode = "once")
    (hinv : countRows tid hist ≤ 1) :
    countRows tid (runTicks db offset outcome elapsed hist ticks) ≤ 1 := by
  induction ticks generalizing hist with
  | nil => exact hinv
  | cons t ts ih =>
      exact ih _ (countRows_runTick_le db offset outcome elapsed (hist, t) tid honce hinv)

/-- C3: a task with repeat_mode "once" fires at most once in its lifetime:
its eligibility gate is exactly "ExecutionHistory holds no row at all for its
task_id", and over an arbitrary run of poll ticks (any timezone offset, any
orchestration outcomes, any tick times spanning any number of days) the
number of history rows for that task id never exceeds one, starting from a
history with none. -/
theorem once_task_lifetime_at_most_one_row (db : List STask) (offset : Int)
    (outcome : Int → Bool) (elapsed : Int → Int) (ticks : List Int)
    (hist : List HRow) (tid : Int) (u : STask) (w : Int) (hu2 : List HRow)
    (honce : ∀ t ∈ db, t.id = tid → t.repeatMode = "once")
    (h0 : countRows tid hist = 0)
    (humode : u.repeatMode = "once") :
    countRows tid (runTicks db offset outcome elapsed hist ticks) ≤ 1 ∧
      (shouldExecute u w hu2 = true ↔ countRows u.id hu2 = 0) := by
  constructor
  · exact countRows_runTicks_le db offset outcome elapsed ticks hist tid honce
      (by omega)
  · unfold shouldExecute
    rw [humode]
    simp

/-- A `once` task used for the C3 witness. -/
def onceTask : STask :=
  { id := 3, hour := 7, minute := 0, repeatMode := "once", customDays := none,
    playlistId := 1, volume := 60, fadeInDuration := 0, priority := 0, isEnabled := true }

/-- Witness for C3: a concrete `once` task polled at 07:00 on two consecutive
days ends with at most one history row. -/
theorem once_task_lifetime_at_most_one_row_witness :
    (∀ t ∈ [onceTask], t.id = 3 → t.repeatMode = "once") ∧
      countRows 3 ([] : List HRow) = 0 ∧
      onceTask.repeatMode = "once" ∧
      (countRows 3 (runTicks [onceTask] 0 (fun _ => true) (fun _ => 0) [] [25200, 111600]) ≤ 1 ∧
        (shouldExecute onceTask 5 [] = true ↔ countRows onceTask.id [] = 0)) :=
  ⟨by decide, by decide, by decide,
    once_task_lifetime_at_most_one_row [onceTask] 0 (fun _ => true) (fun _ => 0)
      [25200, 111600] [] 3 onceTask 5 [] (by decide) (by decide) (by decide)⟩

/-- A daily 07:00 task that will fail to play (empty playlist), priority 1. -/
def taskA : STask :=
  { id := 1, hour := 7, minute := 0, repeatMode := "daily", customDays := none,
    playlistId := 9, volume := 80, fadeInDuration := 0, priority := 1, isEnabled := true }

/-- A daily 07:00 task that plays successfully, priority 0 (processed after
`taskA` under the ORDER BY priority DESC ordering). -/
def taskB : STask :=
  { id := 2, hour := 7, minute := 0, repeatMode := "daily", customDays := none,
    playlistId := 1, volume := 80, fadeInDuration := 0, priority := 0, isEnabled := true }

/-- C4 counterexample: in one tick at 07:00:00, task 1 fires and its
orchestration fails (its row is set to 'failed'), then task 2 fires in the
same second and succeeds; the success-path UPDATE selects by the global
maximum execution_time with no task_id filter, so it rewrites task 1's row
to 'completed' as well — the update modifies a row that does not belong to
the fired task, and the failed task's row does not end as 'failed'. -/
theorem completed_update_rewrites_other_task_row :
    (fun i => decide (i = (2 : Int))) 1 = false ∧
      (runTick [taskA, taskB] 0 (fun i => decide (i = (2 : Int))) (fun _ => 0)
            ([], 25200)).1.filter (fun r => decide (r.taskId = 1)) =
        [{ taskId := 1, time := 25200, status := "completed" }] := by
  decide

/-- In a zip of a list with its own map, the second component is the image
of the first. -/
theorem zip_map_snd (g : HRow → HRow) (l : List HRow) :
    ∀ p ∈ l.zip (l.map g), p.2 = g p.1 := by
  induction l with
  | nil => simp
  | cons a as ih =>
      intro p hp
      simp only [List.map_cons, List.zip_cons_cons, List.mem_cons] at hp
      rcases hp with rfl | hp
      · rfl
      · exact ih p hp

/-- Folding max over times all bounded by the start value returns it. -/
theorem foldl_maxTime_eq (rs : List HRow) (a : Int) (hle : ∀ r ∈ rs, r.time ≤ a) :
    rs.foldl (fun m x => max m x.time) a = a := by
  induction rs with
  | nil => rfl
  | cons r rs ih =>
      simp only [List.foldl_cons]
      rw [max_eq_left (hle r (List.mem_cons_self _ _))]
      exact ih (fun x hx => hle x (List.mem_cons_of_mem _ hx))

/-- The global MAX over a history headed by its latest row is that row's
time. -/
theorem maxTimeAll_cons_latest (row : HRow) (h : List HRow)
    (hle : ∀ r ∈ h, r.time ≤ row.time) :
    maxTimeAll (row :: h) = some row.time := by
  simp only [maxTimeAll]
  rw [foldl_maxTime_eq h row.time hle]

/-- The per-task MAX over a history headed by the task's latest row is that
row's time. -/
theorem maxTimeFor_cons_latest (id tIns : Int) (h : List HRow)
    (hle : ∀ r ∈ h, r.time ≤ tIns) :
    maxTimeFor id ({ taskId := id, time := tIns, status := "started" } :: h) =
      some tIns := by
  unfold maxTimeFor
  rw [List.filter_cons_of_pos (by simp)]
  exact maxTimeAll_cons_latest _ _ (fun r hr => hle r (List.mem_of_mem_filter hr))

/-- C4 (amended): when a task fires at a time no earlier than every existing
row, its freshly inserted row ends as 'completed' on success and 'failed' on
failure (never stays 'started'); on failure every other row whose status the
update touches belongs to the fired task, while on success every other row
it touches is one carrying the globally maximal execution_time (equal to the
insertion time) — which may belong to a different task. -/
theorem fireTask_status_targets (id tIns : Int) (outcome : Bool) (h : List HRow)
    (hmono : ∀ r ∈ h, r.time ≤ tIns) :
    (fireTask id tIns outcome h).head? =
        some { taskId := id, time := tIns,
               status := if outcome then "completed" else "failed" } ∧
      ∀ p ∈ h.zip (fireTask id tIns outcome h).tail,
        p.2.taskId = p.1.taskId ∧ p.2.time = p.1.time ∧
          (p.2.status ≠ p.1.status →
            (outcome = true ∧ p.1.time = tIns) ∨
              (outcome = false ∧ p.1.taskId = id)) := by
  cases outcome
  · have hMF := maxTimeFor_cons_latest id tIns h hmono
    have htail : (fireTask id tIns false h).tail =
        h.map (fun r =>
          if r.taskId = id ∧
              maxTimeFor id ({ taskId := id, time := tIns, status := "started" } :: h) =
                some r.time then
            { r with status := "failed" } else r) := by
      simp [fireTask, markFailed]
    constructor
    · simp [fireTask, markFailed, hMF]
    · intro p hp
      rw [htail] at hp
      have hsnd := zip_map_snd (fun r =>
        if r.taskId = id ∧
            maxTimeFor id ({ taskId := id, time := tIns, status := "started" } :: h) =
              some r.time then
          { r with status := "failed" } else r) h p hp
      dsimp only at hsnd
      by_cases hc : p.1.taskId = id ∧
          maxTimeFor id ({ taskId := id, time := tIns, status := "started" } :: h) =
            some p.1.time
      · rw [if_pos hc] at hsnd
        rw [hsnd]
        exact ⟨rfl, rfl, fun _ => Or.inr ⟨rfl, hc.1⟩⟩
      · rw [if_neg hc] at hsnd
        rw [hsnd]
        exact ⟨rfl, rfl, fun hne => absurd rfl hne⟩
  · have hMA := maxTimeAll_cons_latest
      { taskId := id, time := tIns, status := "started" } h (by simpa using hmono)
    have htail : (fireTask id tIns true h).tail =
        h.map (fun r =>
          if maxTimeAll ({ taskId := id, time := tIns, status := "started" } :: h) =
              some r.time then
            { r with status := "completed" } else r) := by
      simp [fireTask, markCompleted]
    constructor
    · simp [fireTask, markCompleted, hMA]
    · intro p hp
      rw [htail] at hp
      have hsnd := zip_map_snd (fun r =>
        if maxTimeAll ({ taskId := id, time := tIns, status := "started" } :: h) =
            some r.time then
          { r with status := "completed" } else r) h p hp
      dsimp only at hsnd
      by_cases hc : maxTimeAll ({ taskId := id, time := tIns, status := "started" } :: h) =
          some p.1.time
      · rw [if_pos hc] at hsnd
        rw [hsnd]
        refine ⟨rfl, rfl, fun _ => Or.inl ⟨rfl, ?_⟩⟩
        have h2 := hMA.symm.trans hc
        exact (Option.some_injective _ h2).symm
      · rw [if_neg hc] at hsnd
        rw [hsnd]
        exact ⟨rfl, rfl, fun hne => absurd rfl hne⟩

/-- Witness for the amended C4 at a concrete firing: task 5 fails at time 50
over a history with one older row of task 9. -/
theorem fireTask_status_targets_witness :
    (∀ r ∈ [({ taskId := 9, time := 40, status := "completed" } : HRow)], r.time ≤ 50) ∧
      ((fireTask 5 50 false [{ taskId := 9, time := 40, status := "completed" }]).head? =
          some { taskId := 5, time := 50,
                 status := if false then "completed" else "failed" } ∧
        ∀ p ∈ ([({ taskId := 9, time := 40, status := "completed" } : HRow)]).zip
            (fireTask 5 50 false [{ taskId := 9, time := 40, status := "completed" }]).tail,
          p.2.taskId = p.1.taskId ∧ p.2.time = p.1.time ∧
            (p.2.status ≠ p.1.status →
              (false = true ∧ p.1.time = 50) ∨ (false = false ∧ p.1.taskId = 5))) :=
  ⟨by decide,
    fireTask_status_targets 5 50 false [{ taskId := 9, time := 40, status := "completed" }]
      (by decide)⟩

/-- scheduler.rs lines 250-263: the sequence of volume values handed to
`set_volume` during the fade-in ramp, one per second from ramp start:
`target = volume as f32 / 100`, `volume_step = target / steps` with
`steps = fade_in_duration`, and for `i in 0..=steps` the value
`min(volume_step * i, target)`.  Rust f32 arithmetic is modelled exactly
over the rationals. -/
def fadeRampVolumes (volume fadeInDuration : Int) : List ℚ :=
  let target : ℚ := (volume : ℚ) / 100
  let steps : Nat := fadeInDuration.toNat
  let volumeStep : ℚ := target / (steps : ℚ)
  (List.range (steps + 1)).map (fun i : Nat => min (volumeStep * (i : ℚ)) target)

/-- C8: with volume 80 and a 4-second fade-in the ramp applies volume 0 at
ramp start and then, at the four one-second steps, 20, 40, 60 and 80
percent (1/5, 2/5, 3/5, 4/5), hitting the target 80/100 exactly at the end
of the ramp, where the per-track loop stops changing the volume. -/
theorem fade_in_80_over_4s_sequence :
    fadeRampVolumes 80 4 = [0, 1/5, 2/5, 3/5, 4/5] ∧
      (fadeRampVolumes 80 4).drop 1 = [20/100, 40/100, 60/100, 80/100] ∧
      (fadeRampVolumes 80 4).getLast? = some (80/100) := by
  have h : fadeRampVolumes 80 4 = [0, 1/5, 2/5, 3/5, 4/5] := by
    dsimp only [fadeRampVolumes]
    rw [show List.range (Int.toNat 4 + 1) = [0, 1, 2, 3, 4] from rfl,
      show Int.toNat 4 = 4 from rfl]
    simp only [List.map_cons, List.map_nil]
    norm_num [min_def]
  refine ⟨h, ?_, ?_⟩ <;> rw [h] <;> norm_num [List.getLast?]

/-- The in-memory state of player.rs's `AudioPlayer` (the rodio stream and
sink handles carry no scheduling-relevant state and are omitted; `volume`
and `speed` are f32 fields modelled over the rationals). -/
structure PlayerState where
  currentAudioId : Option Int
  currentAudioName : Option String
  playlistQueue : List Int
  currentIndex : Nat
  volume : ℚ
  speed : ℚ
  isAutoPlay : Bool

/-- player.rs lines 40-53, `AudioPlayer::new`: initial state, volume 0.5,
speed 1.0. -/
def AudioPlayer.new : PlayerState :=
  { currentAudioId := none, currentAudioName := none, playlistQueue := [],
    currentIndex := 0, volume := 1/2, speed := 1, isAutoPlay := false }

/-- player.rs lines 157-162, `AudioPlayer::set_volume`: the stored volume is
`volume.max(0.0).min(1.0)`. -/
def setVolume (s : PlayerState) (v : ℚ) : PlayerState :=
  { s with volume := min (max v 0) 1 }

/-- player.rs lines 164-168, `AudioPlayer::set_speed`: clamp to [0.5, 3.0];
the volume field is untouched. -/
def setSpeed (s : PlayerState) (v : ℚ) : PlayerState :=
  { s with speed := min (max v (1/2)) 3 }

/-- player.rs lines 145-155, `AudioPlayer::stop`: clears the sink, current
track and queue; the volume field is untouched. -/
def stopPlayer (s : PlayerState) : PlayerState :=
  { s with
    currentAudioId := none
    currentAudioName := none
    playlistQueue := []
    currentIndex := 0
    isAutoPlay := false }

/-- player.rs lines 100-104, `AudioPlayer::set_playlist_queue`. -/
def setPlaylistQueue (s : PlayerState) (q : List Int) (auto : Bool) : PlayerState :=
  { s with playlistQueue := q, currentIndex := 0, isAutoPlay := auto }

/-- player.rs lines 94-98, `AudioPlayer::play_with_info`: records the track
identity; `play` itself re-applies the stored volume to the new sink without
changing it. -/
def playWithInfo (s : PlayerState) (audioId : Int) (audioName : String) : PlayerState :=
  { s with currentAudioId := some audioId, currentAudioName := some audioName }

/-- player.rs lines 106-117, `AudioPlayer::play_next` (state part). -/
def playNext (s : PlayerState) : PlayerState :=
  if s.playlistQueue.isEmpty then s
  else if s.currentIndex + 1 < s.playlistQueue.length then
    { s with currentIndex := s.currentIndex + 1 }
  else s

/-- player.rs lines 119-130, `AudioPlayer::play_previous` (state part). -/
def playPrevious (s : PlayerState) : PlayerState :=
  if s.playlistQueue.isEmpty then s
  else if 0 < s.currentIndex then { s with currentIndex := s.currentIndex - 1 }
  else s

/-- The state-mutating operations of `AudioPlayer` (pause/resume only touch
the sink and are identities on this state). -/
inductive PlayerOp
  | opSetVolume (v : ℚ)
  | opSetSpeed (v : ℚ)
  | opStop
  | opSetQueue (q : List Int) (auto : Bool)
  | opPlayWithInfo (audioId : Int) (audioName : String)
  | opNext
  | opPrevious
  | opPause
  | opResume

/-- Apply one player operation to the state. -/
def applyOp (s : PlayerState) : PlayerOp → PlayerState
  | .opSetVolume v => setVolume s v
  | .opSetSpeed v => setSpeed s v
  | .opStop => stopPlayer s
  | .opSetQueue q auto => setPlaylistQueue s q auto
  | .opPlayWithInfo i n => playWithInfo s i n
  | .opNext => playNext s
  | .opPrevious => playPrevious s
  | .opPause => s
  | .opResume => s

/-- Every player operation keeps the stored volume inside [0, 1]. -/
theorem applyOp_volume_bounds (s : PlayerState) (op : PlayerOp)
    (h0 : 0 ≤ s.volume) (h1 : s.volume ≤ 1) :
    0 ≤ (applyOp s op).volume ∧ (applyOp s op).volume ≤ 1 := by
  cases op with
  | opSetVolume v =>
      constructor
      · exact le_min (le_max_right v 0) (by norm_num)
      · exact min_le_right _ 1
  | opSetSpeed v => exact ⟨h0, h1⟩
  | opStop => exact ⟨h0, h1⟩
  | opSetQueue q auto => exact ⟨h0, h1⟩
  | opPlayWithInfo i n => exact ⟨h0, h1⟩
  | opNext =>
      unfold applyOp playNext
      split_ifs <;> exact ⟨h0, h1⟩
  | opPrevious =>
      unfold applyOp playPrevious
      split_ifs <;> exact ⟨h0, h1⟩
  | opPause => exact ⟨h0, h1⟩
  | opResume => exact ⟨h0, h1⟩

/-- Volume bounds survive any sequence of operations. -/
theorem foldl_applyOp_volume_bounds (ops : List PlayerOp) :
    ∀ s : PlayerState, 0 ≤ s.volume → s.volume ≤ 1 →
      0 ≤ (ops.foldl applyOp s).volume ∧ (ops.foldl applyOp s).volume ≤ 1 := by
  induction ops with
  | nil => exact fun s h0 h1 => ⟨h0, h1⟩
  | cons op ops ih =>
      intro s h0 h1
      obtain ⟨g0, g1⟩ := applyOp_volume_bounds s op h0 h1
      exact ih _ g0 g1

/-- C10: the player's stored volume always lies within [0, 1]: the initial
volume is 0.5, `set_volume` clamps every input into [0, 1] before storing
it, and every other player operation leaves the bound intact, so after any
sequence of operations from the initial state the volume is in [0, 1]. -/
theorem player_volume_always_in_unit_interval (ops : List PlayerOp) :
    AudioPlayer.new.volume = 1/2 ∧
      (∀ s : PlayerState, ∀ v : ℚ, 0 ≤ (setVolume s v).volume ∧ (setVolume s v).volume ≤ 1) ∧
      0 ≤ (ops.foldl applyOp AudioPlayer.new).volume ∧
      (ops.foldl applyOp AudioPlayer.new).volume ≤ 1 := by
  refine ⟨rfl, ?_, ?_⟩
  · intro s v
    exact ⟨le_min (le_max_right v 0) (by norm_num), min_le_right _ 1⟩
  · exact foldl_applyOp_volume_bounds ops AudioPlayer.new (by norm_num [AudioPlayer.new])
      (by norm_num [AudioPlayer.new])

/-- One row of the `audio_files` table as read by the playback paths. -/
structure AudioFileRec where
  id : Int
  filePath : String
  duration : Int
  originalName : String
deriving DecidableEq

/-- One row of the `playlist_items` table. -/
structure PlaylistItemRec where
  playlistId : Int
  audioId : Int
  sortOrder : Int
deriving DecidableEq

/-- The parts of the store both playback paths read. -/
structure Store where
  audioFiles : List AudioFileRec
  playlistItems : List PlaylistItemRec

/-- Stable insertion step for ORDER BY sort_order. -/
def insertBySortOrder (x : PlaylistItemRec) : List PlaylistItemRec → List PlaylistItemRec
  | [] => [x]
  | y :: ys =>
      if y.sortOrder < x.sortOrder then y :: insertBySortOrder x ys else x :: y :: ys

/-- The playlist's items in `ORDER BY sort_order` order with ties kept in row
order — the result set both scheduler.rs lines 204-223 and player.rs lines
356-373 iterate. -/
def itemsFor (s : Store) (playlistId : Int) : List PlaylistItemRec :=
  (s.playlistItems.filter (fun it => decide (it.playlistId = playlistId))).foldr
    insertBySortOrder []

/-- `SELECT ... FROM audio_files WHERE id = ?1` as used by both paths. -/
def lookupAudio (s : Store) (audioId : Int) : Option AudioFileRec :=
  s.audioFiles.find? (fun a => decide (a.id = audioId))

/-- Observable playback actions, in order: queue replacement, a volume value
handed to set_volume, starting one track (play_with_info), sleeping, and the
play_count/last_played bump of one audio row. -/
inductive PlayEv
  | setQueue (audioIds : List Int) (auto : Bool)
  | setVol (v : ℚ)
  | play (audioId : Int) (path : String) (name : String)
  | waitSecs (secs : Int)
  | bumpPlayCount (audioId : Int)
deriving DecidableEq

/-- scheduler.rs lines 236-277: the actions of one track of the scheduled
playback loop — initial volume (0 when fading, else volume/100), start of
playback, the fade ramp when configured, the full recorded-duration wait,
and the play-count bump. -/
def perTrackEvents (volume fadeInDuration : Int) (f : AudioFileRec) : List PlayEv :=
  (if fadeInDuration > 0 then [PlayEv.setVol 0]
   else [PlayEv.setVol ((volume : ℚ) / 100)]) ++
  [PlayEv.play f.id f.filePath f.originalName] ++
  (if fadeInDuration > 0 then (fadeRampVolumes volume fadeInDuration).map PlayEv.setVol
   else []) ++
  [PlayEv.waitSecs f.duration, PlayEv.bumpPlayCount f.id]

/-- scheduler.rs lines 194-290, `Scheduler::play_playlist`: resolve the
playlist (JOIN with audio_files, dropping dangling items), error on an empty
resolution, set the queue (auto = true), then drive every resolved track. -/
def schedulerPlayPlaylist (s : Store) (playlistId volume fadeInDuration : Int) :
    Except String (List PlayEv) :=
  if ((itemsFor s playlistId).filterMap (fun it => lookupAudio s it.audioId)).isEmpty then
    Except.error "播放列表为空"
  else
    Except.ok
      (PlayEv.setQueue
          (((itemsFor s playlistId).filterMap (fun it => lookupAudio s it.audioId)).map
            (fun f => f.id)) true ::
        ((itemsFor s playlistId).filterMap (fun it => lookupAudio s it.audioId)).flatMap
          (perTrackEvents volume fadeInDuration))

/-- player.rs lines 348-405, the `play_playlist` command: resolve only the
audio ids, error on an empty playlist, set the queue, then start and count
just the first track (advancing is left to later play_next commands); a
dangling first id surfaces the row-lookup error. -/
def manualPlayPlaylist (s : Store) (playlistId : Int) (isAutoPlay : Bool) :
    Except String (List PlayEv) :=
  match (itemsFor s playlistId).map (fun it => it.audioId) with
  | [] => Except.error "播放列表为空"
  | firstId :: restIds =>
      match lookupAudio s firstId with
      | none => Except.error "QueryReturnedNoRows"
      | some f =>
          Except.ok [PlayEv.setQueue (firstId :: restIds) isAutoPlay,
            PlayEv.play f.id f.filePath f.originalName,
            PlayEv.bumpPlayCount f.id]

/-- The ids of the tracks a trace starts (play_with_info calls), in order. -/
def playedIds (evs : List PlayEv) : List Int :=
  evs.filterMap (fun e =>
    match e with
    | PlayEv.play i _ _ => some i
    | _ => none)

/-- The queue installed by the trace's leading set_playlist_queue call. -/
def queueIds (evs : List PlayEv) : List Int :=
  match evs with
  | PlayEv.setQueue ids _ :: _ => ids
  | _ => []

/-- A store with one playlist (id 1) holding two resolvable audio files. -/
def demoStore : Store :=
  { audioFiles := [{ id := 10, filePath := "a.mp3", duration := 5, originalName := "A" },
      { id := 20, filePath := "b.mp3", duration := 7, originalName := "B" }],
    playlistItems := [{ playlistId := 1, audioId := 10, sortOrder := 0 },
      { playlistId := 1, audioId := 20, sortOrder := 1 }] }

/-- C9 counterexample: on a two-track playlist the scheduled orchestration
starts (and counts) both tracks while the manual play_playlist command
starts only the first — the two paths do not share the same sequencing. -/
theorem manual_command_plays_only_first_track :
    (schedulerPlayPlaylist demoStore 1 80 0).map playedIds = Except.ok [10, 20] ∧
      (manualPlayPlaylist demoStore 1 true).map playedIds = Except.ok [10] ∧
      ([10, 20] : List Int) ≠ [10] :=
  ⟨rfl, rfl, by decide⟩

/-- playedIds distributes over concatenation. -/
theorem playedIds_append (l1 l2 : List PlayEv) :
    playedIds (l1 ++ l2) = playedIds l1 ++ playedIds l2 := by
  unfold playedIds
  exact List.filterMap_append l1 l2 _

/-- Volume events contribute no played tracks. -/
theorem playedIds_setVol_map (qs : List ℚ) :
    playedIds (qs.map PlayEv.setVol) = [] := by
  induction qs with
  | nil => rfl
  | cons q qs ih =>
      unfold playedIds at ih ⊢
      simp only [List.map_cons, List.filterMap_cons]
      exact ih

/-- One scheduled track block starts exactly its own track. -/
theorem playedIds_perTrack (volume fadeInDuration : Int) (f : AudioFileRec) :
    playedIds (perTrackEvents volume fadeInDuration f) = [f.id] := by
  unfold perTrackEvents
  by_cases hf : fadeInDuration > 0
  · simp [hf, playedIds_append, playedIds_setVol_map, playedIds]
  · simp [hf, playedIds_append, playedIds]

/-- The scheduled loop starts every resolved track once, in order. -/
theorem playedIds_flatMap_perTrack (volume fadeInDuration : Int)
    (files : List AudioFileRec) :
    playedIds (files.flatMap (perTrackEvents volume fadeInDuration)) =
      files.map (fun f => f.id) := by
  induction files with
  | nil => rfl
  | cons f fs ih =>
      simp [List.flatMap_cons, playedIds_append, playedIds_perTrack, ih]

/-- A successful audio lookup returns the row with the requested id. -/
theorem lookupAudio_id (s : Store) (i : Int) (a : AudioFileRec)
    (h : lookupAudio s i = some a) : a.id = i := by
  unfold lookupAudio at h
  have := List.find?_some h
  simpa using this

/-- When every playlist item resolves, the JOIN-style resolution lists the
item audio ids in order. -/
theorem filterMap_lookup_map (s : Store) (l : List PlaylistItemRec)
    (hall : ∀ it ∈ l, (lookupAudio s it.audioId).isSome = true) :
    (l.filterMap (fun it => lookupAudio s it.audioId)).map (fun a => a.id) =
      l.map (fun it => it.audioId) := by
  induction l with
  | nil => rfl
  | cons it l ih =>
      obtain ⟨a, ha⟩ := Option.isSome_iff_exists.mp (hall it (List.mem_cons_self _ _))
      have hid := lookupAudio_id s it.audioId a ha
      simp [List.filterMap_cons, ha, hid,
        ih (fun u hu => hall u (List.mem_cons_of_mem _ hu))]

/-- Except.map on a success value, specialised to trace projections. -/
theorem except_map_ok (f : List PlayEv → List Int) (x : List PlayEv) :
    Except.map f (Except.ok x : Except String (List PlayEv)) = Except.ok (f x) := rfl

/-- A leading queue replacement contributes no played tracks. -/
theorem playedIds_setQueue_cons (q : List Int) (b : Bool) (l : List PlayEv) :
    playedIds (PlayEv.setQueue q b :: l) = playedIds l := rfl

/-- The scheduled path on a playlist with a nonempty resolution. -/
theorem schedulerPlayPlaylist_resolved (s : Store) (playlistId volume fadeInDuration : Int)
    (hne : (itemsFor s playlistId).filterMap (fun it => lookupAudio s it.audioId) ≠ []) :
    schedulerPlayPlaylist s playlistId volume fadeInDuration =
      Except.ok
        (PlayEv.setQueue
            (((itemsFor s playlistId).filterMap (fun it => lookupAudio s it.audioId)).map
              (fun f => f.id)) true ::
          ((itemsFor s playlistId).filterMap (fun it => lookupAudio s it.audioId)).flatMap
            (perTrackEvents volume fadeInDuration)) := by
  unfold schedulerPlayPlaylist
  rw [if_neg (fun habs => hne (List.isEmpty_iff.mp habs))]

/-- The manual path on a playlist whose first item resolves. -/
theorem manualPlayPlaylist_cons (s : Store) (playlistId : Int) (auto : Bool)
    (it : PlaylistItemRec) (its : List PlaylistItemRec) (a : AudioFileRec)
    (hfe : itemsFor s playlistId = it :: its)
    (ha : lookupAudio s it.audioId = some a) :
    manualPlayPlaylist s playlistId auto =
      Except.ok [PlayEv.setQueue (it.audioId :: its.map (fun u => u.audioId)) auto,
        PlayEv.play a.id a.filePath a.originalName,
        PlayEv.bumpPlayCount a.id] := by
  unfold manualPlayPlaylist
  rw [hfe]
  simp only [List.map_cons]
  rw [ha]

/-- C9 (amended): over any store in which every item of the playlist
resolves to an audio row, the two playback entry points agree on playlist
resolution — both fail with the same empty-playlist error exactly when the
playlist has no items, and both install the same queue — but they do not
share the sequencing of playback: the scheduled orchestration starts every
resolved track while the manual command starts only the first (volume,
fade-in, waiting and the remaining play-count updates happen only on the
scheduler path). -/
theorem sched_vs_manual_play (s : Store) (playlistId volume fadeInDuration : Int)
    (auto : Bool)
    (hall : ∀ it ∈ itemsFor s playlistId, (lookupAudio s it.audioId).isSome = true) :
    (itemsFor s playlistId = [] →
        schedulerPlayPlaylist s playlistId volume fadeInDuration =
            Except.error "播放列表为空" ∧
          manualPlayPlaylist s playlistId auto = Except.error "播放列表为空") ∧
      (itemsFor s playlistId ≠ [] →
        (schedulerPlayPlaylist s playlistId volume fadeInDuration).map playedIds =
            Except.ok ((itemsFor s playlistId).map (fun it => it.audioId)) ∧
          (manualPlayPlaylist s playlistId auto).map playedIds =
            Except.ok (((itemsFor s playlistId).map (fun it => it.audioId)).take 1) ∧
          (schedulerPlayPlaylist s playlistId volume fadeInDuration).map queueIds =
            (manualPlayPlaylist s playlistId auto).map queueIds) := by
  have hmap := filterMap_lookup_map s (itemsFor s playlistId) hall
  constructor
  · intro hnil
    constructor
    · unfold schedulerPlayPlaylist
      rw [hnil]
      rfl
    · unfold manualPlayPlaylist
      rw [hnil]
      rfl
  · intro hne
    cases hfe : itemsFor s playlistId with
    | nil => exact absurd hfe hne
    | cons it its =>
        have hmem : it ∈ itemsFor s playlistId := by
          rw [hfe]
          exact List.mem_cons_self _ _
        obtain ⟨a, ha⟩ := Option.isSome_iff_exists.mp (hall it hmem)
        have hid := lookupAudio_id s it.audioId a ha
        have hfiles_ne :
            (itemsFor s playlistId).filterMap (fun u => lookupAudio s u.audioId) ≠ [] := by
          intro hcon
          rw [hcon] at hmap
          rw [hfe] at hmap
          simp at hmap
        have hsched := schedulerPlayPlaylist_resolved s playlistId volume fadeInDuration
          hfiles_ne
        have hman := manualPlayPlaylist_cons s playlistId auto it its a hfe ha
        refine ⟨?_, ?_, ?_⟩
        · rw [hsched, except_map_ok]
          refine congrArg _ ?_
          rw [playedIds_setQueue_cons, playedIds_flatMap_perTrack, hmap, hfe]
        · rw [hman, except_map_ok]
          refine congrArg _ ?_
          show [a.id] = ((it :: its).map (fun u => u.audioId)).take 1
          rw [hid]
          simp
        · rw [hsched, hman, except_map_ok, except_map_ok]
          refine congrArg _ ?_
          show ((itemsFor s playlistId).filterMap
                (fun u => lookupAudio s u.audioId)).map (fun f => f.id) =
              it.audioId :: its.map (fun u => u.audioId)
          rw [hmap, hfe]
          simp

/-- Witness for the amended C9 on the concrete two-track store. -/
theorem sched_vs_manual_play_witness :
    (∀ it ∈ itemsFor demoStore 1, (lookupAudio demoStore it.audioId).isSome = true) ∧
      ((itemsFor demoStore 1 = [] →
          schedulerPlayPlaylist demoStore 1 80 0 = Except.error "播放列表为空" ∧
            manualPlayPlaylist demoStore 1 true = Except.error "播放列表为空") ∧
        (itemsFor demoStore 1 ≠ [] →
          (schedulerPlayPlaylist demoStore 1 80 0).map playedIds =
              Except.ok ((itemsFor demoStore 1).map (fun it => it.audioId)) ∧
            (manualPlayPlaylist demoStore 1 true).map playedIds =
              Except.ok (((itemsFor demoStore 1).map (fun it => it.audioId)).take 1) ∧
            (schedulerPlayPlaylist demoStore 1 80 0).map queueIds =
              (manualPlayPlaylist demoStore 1 true).map queueIds)) :=
  ⟨by decide, sched_vs_manual_play demoStore 1 80 0 true (by decide)⟩
